import Mathlib

/-!
Verification of the air-script compiler front end (maierlars/air-script).

This file is a shallow embedding of the Python sources `parser.py` and
`airast.py` into Lean 4, together with theorems settling the behavioural
claims about the tokenizer (`atomize`), the one-token lookahead stream
(`LookaheadIterator`), the recursive-descent / precedence-climbing parser
(`parse_*` family, `parse`) and the AST-to-AIR emission pass (`airify`).

Modelling conventions:
  * Python exceptions are modelled by the `Except PyError` monad.  Each
    `PyError` constructor corresponds to a Python exception class; error
    message strings are carried structurally (`ErrMsg`) rather than as
    formatted text.
  * Python floats produced by `float(...)` on numeric literals are
    modelled as exact rationals (`ℚ`) via `pythonFloat`, which implements
    the decimal-literal fragment of Python's float parser (the only
    fragment reachable from the lexer, whose runs start with a digit).
  * The Python lexer is a lazy generator; the embedding lexes eagerly
    (`atomize` returns the whole token list or the first lexical error).
    Every input analysed below either lexes without error or is analysed
    at the lexer level directly, so the difference is unobservable here.
  * Recursion in the parser is fuelled; `parse` supplies ample fuel
    (`PyError.fuel` never occurs on the inputs considered).
  * The module `airast` defines no class `JsonValue` (its literal node is
    `ValueNode`), so the expressions `airast.JsonValue(...)` in
    `parser.py` raise `AttributeError` at run time.  The embedding maps
    them to `PyError.attributeError "JsonValue"`.
-/

/-- Source position as produced by `get_position` in `atomize`:
a `(line, column)` pair, both 1-based. -/
def SourcePos := Nat × Nat
deriving DecidableEq

/-- Source span `SourceLocation(begin, end)` from `airast.py`. -/
structure SourceLocation where
  beginPos : SourcePos
  endPos : SourcePos
deriving DecidableEq

/-- Token variants from `parser.py` (`NumericValue`, `StringValue`, `Atom`,
`Operator`, `Symbol`), each carrying its optional source span.  `Symbol`
carries a string because `parse_lambda_expression` builds `Symbol('', '')`
with an empty symbol text. -/
inductive Token
  | numericValue (value : ℚ) (location : Option SourceLocation)
  | stringValue (value : String) (location : Option SourceLocation)
  | atom (name : String) (location : Option SourceLocation)
  | operator (op : Char) (location : Option SourceLocation)
  | symbol (sym : String) (location : Option SourceLocation)
deriving DecidableEq

/-- The `location` attribute of a token. -/
def Token.location : Token → Option SourceLocation
  | .numericValue _ l => l
  | .stringValue _ l => l
  | .atom _ l => l
  | .operator _ l => l
  | .symbol _ l => l

/-- Python `str.lower()` on one character, restricted to ASCII — the only
case folding the parser's keyword comparisons can encounter. -/
def charLower (c : Char) : Char :=
  if 'A' ≤ c ∧ c ≤ 'Z' then Char.ofNat (c.toNat + 32) else c

/-- Python `str.lower()` restricted to ASCII. -/
def strLower (s : String) : String := ⟨s.data.map charLower⟩

/-- Python `==` on tokens: `Atom.__eq__` compares names case-insensitively,
`Operator.__eq__` compares the operator character, `Symbol.__eq__` compares
the symbol text; every cross-class comparison (and any comparison involving
`NumericValue` or `StringValue`, which define no `__eq__`) falls back to
object identity and is `False` for the distinct template objects the parser
compares against. -/
def tokenEq : Token → Token → Bool
  | .atom a _, .atom b _ => strLower a == strLower b
  | .operator a _, .operator b _ => a == b
  | .symbol a _, .symbol b _ => a == b
  | _, _ => false

/-- Python `==` between an optional token (`lookahead` may return `None`)
and a token template; `None == token` is `False`. -/
def optEq (o : Option Token) (t : Token) : Bool :=
  match o with
  | some x => tokenEq x t
  | none => false

/-- Python `in` between an optional token and a list of token templates. -/
def optMem (o : Option Token) (l : List Token) : Bool :=
  l.any (fun t => optEq o t)

/-- Binary operators from `airast.BinaryOperator`. -/
inductive BinaryOperator
  | ADD | SUB | MUL | DIV | AND | OR | EQ | NEQ | LT | LE | GT | GE
deriving DecidableEq

/-- Canonical operator spelling, `BinaryOperator.name` in `airast.py`. -/
def BinaryOperator.opName : BinaryOperator → String
  | .ADD => "+"
  | .SUB => "-"
  | .MUL => "*"
  | .DIV => "/"
  | .AND => "and"
  | .OR => "or"
  | .EQ => "eq?"
  | .NEQ => "ne?"
  | .LT => "lt?"
  | .LE => "le?"
  | .GT => "gt?"
  | .GE => "ge?"

/-- The fixed precedence table `BinaryOperator.precedence` in `airast.py`. -/
def BinaryOperator.precedence : BinaryOperator → Int
  | .ADD => 0
  | .SUB => 0
  | .MUL => 1
  | .DIV => 1
  | .AND => -3
  | .OR => -3
  | .EQ => -2
  | .NEQ => -2
  | .LT => -2
  | .LE => -2
  | .GT => -2
  | .GE => -2

/-- Unary operators from `airast.UnaryOperator`. -/
inductive UnaryOperator
  | NEG
deriving DecidableEq

/-- AST nodes from `airast.py` as a closed sum.  `none_` embeds the Python
value `None`, which `parse_simple_value` returns when no case matches and
which can therefore occur wherever the parser stores a node.  `valueNode`
is `airast.ValueNode` (never constructed by the parser, which instead
calls the missing `airast.JsonValue`). -/
inductive PyAst
  | none_
  | binaryExpression (op : BinaryOperator) (left right : PyAst)
  | unaryExpression (op : UnaryOperator) (operand : PyAst)
  | caseExpression (cases : List (PyAst × PyAst))
  | blockExpression (block : List PyAst)
  | letExpression (bindings : List (PyAst × PyAst)) (block : List PyAst)
  | callExpression (func : PyAst) (parameter : List PyAst)
  | variableReference (name : String)
  | identifier (name : String)
  | ifThenElse (cond then_ otherwise : PyAst)
  | foreachExpression (vars : List (PyAst × PyAst)) (block : List PyAst)
  | lambdaExpression (params captures : List PyAst) (expr : PyAst)

/-- Error messages, carried structurally; each constructor stands for one
formatted message string in `parser.py`. -/
inductive ErrMsg
  | unexpected (got expected : Token)
  | unterminatedString
  | unterminatedQuote
  | unknownOperator (got : Token)
  | expectedVariableName (found : PyAst)
  | expectedVariableReference (found : PyAst)

/-- Python exceptions raised by the lexer and parser.  `parserError` is the
`ParserError` class (message plus optional location); `runtimeErrorAt` is
the two-argument `RuntimeError(msg, location)` raised for bad lambda
parameters; `attributeError` records the missing attribute name (notably
`JsonValue`, absent from module `airast`); `fuel` is an artefact of the
fuelled embedding and never occurs on the inputs considered. -/
inductive PyError
  | parserError (msg : ErrMsg) (location : Option SourceLocation)
  | runtimeError (msg : ErrMsg)
  | runtimeErrorAt (msg : ErrMsg) (location : Option SourceLocation)
  | attributeError (missing : String)
  | stopIteration
  | valueError
  | indexError
  | assertionError
  | fuel

/-- The one-token lookahead stream from `parser.py`.  The underlying lazy
iterator is modelled by the list of not-yet-pulled tokens; `lh` is the
cached lookahead (`self.lh`).  Python conflates "no cache" with "cached
end-of-input sentinel", and so does `Option`. -/
structure LookaheadIterator where
  lh : Option Token
  rest : List Token
deriving DecidableEq

/-- The method `LookaheadIterator.next`: return the cached token if
present, otherwise pull from the iterator; pulling an exhausted iterator
raises `StopIteration`. -/
def LookaheadIterator.next (it : LookaheadIterator) :
    Except PyError (Token × LookaheadIterator) :=
  match it.lh with
  | some v => .ok (v, { lh := none, rest := it.rest })
  | none =>
    match it.rest with
    | [] => .error .stopIteration
    | t :: ts => .ok (t, { lh := none, rest := ts })

/-- The method `LookaheadIterator.lookahead`: return the cached token, or
pull one (caching it); at end of input `next(self.iter, None)` yields the
sentinel `None`, which is returned without distinguishable caching. -/
def LookaheadIterator.lookahead (it : LookaheadIterator) :
    Option Token × LookaheadIterator :=
  match it.lh with
  | some v => (some v, it)
  | none =>
    match it.rest with
    | [] => (none, { lh := none, rest := [] })
    | t :: ts => (some t, { lh := some t, rest := ts })

/-! ## Lexer (`atomize`) -/

/-- Whitespace characters from `atomize`: `" \r\n\t\v"`. -/
def spaceChars : List Char := [' ', '\r', '\n', '\t', '\x0b']

/-- The run-terminator characters: `"()[]{}\"#:;,\`" + space`. -/
def atom_terminator : List Char :=
  ['(', ')', '[', ']', '{', '}', '"', '#', ':', ';', ',', '`'] ++ spaceChars

/-- The characters `"=+-*/"` that are emitted as `Symbol` tokens but,
unlike `atom_terminator`, do not terminate an atom run. -/
def special_chars : List Char := ['=', '+', '-', '*', '/']

/-- The operator characters `"+-*/|><?!"`. -/
def opChars : List Char := ['+', '-', '*', '/', '|', '>', '<', '?', '!']

/-- The decimal digits, `"0123456789"` in `atomize`. -/
def digitChars : List Char :=
  ['0', '1', '2', '3', '4', '5', '6', '7', '8', '9']

/-- The `get_position` helper of `atomize`: `(line, i - line_start + 1)`. -/
def get_position (line line_start i : Nat) : SourcePos :=
  (line, i - line_start + 1)

/-- The string-literal scanning loop of `atomize`, applied to the
characters after the opening `"`.  Returns the literal text and the number
of characters consumed (including the closing quote).  An opening quote at
the very end of the source indexes past the end (`IndexError`); running
out of input after at least one literal character raises the positionless
`ParserError("Unterminated string constant")`. -/
def readStr : List Char → Except PyError (String × Nat)
  | [] => .error .indexError
  | c :: t =>
    if c = '"' then .ok ("", 1)
    else
      match t with
      | [] => .error (.parserError .unterminatedString none)
      | _ :: _ => do
        let (v, n) ← readStr t
        .ok (⟨c :: v.data⟩, n + 1)

/-- The quoted-atom scanning loop of `atomize`, applied to the characters
after the opening backtick; the unterminated case raises
`RuntimeError("Unterminated quote sequence")`. -/
def readQuoted : List Char → Except PyError (String × Nat)
  | [] => .error .indexError
  | c :: t =>
    if c = '`' then .ok ("", 1)
    else
      match t with
      | [] => .error (.runtimeError .unterminatedQuote)
      | _ :: _ => do
        let (v, n) ← readQuoted t
        .ok (⟨c :: v.data⟩, n + 1)

/-- Decimal digits folded into a natural number. -/
def digitsToNat (cs : List Char) : Nat :=
  cs.foldl (fun a c => 10 * a + (c.toNat - '0'.toNat)) 0

/-- Model of the Python builtin `float(value)` restricted to the strings
the lexer can pass it (runs whose first character is a decimal digit):
`digits ["." digits*] [("e" | "E") ["+" | "-"] digits+]`, evaluated
exactly in `ℚ`; anything else raises `ValueError`.  Underscore separators
and `inf`/`nan` spellings are not modelled. -/
def pythonFloat (cs : List Char) : Option ℚ :=
  let ip := cs.takeWhile (fun c => c.isDigit)
  let r1 := cs.dropWhile (fun c => c.isDigit)
  if ip.isEmpty then none
  else
    let fp : List Char :=
      match r1 with
      | '.' :: t => t.takeWhile (fun c => c.isDigit)
      | _ => []
    let r2 : List Char :=
      match r1 with
      | '.' :: t => t.dropWhile (fun c => c.isDigit)
      | _ => r1
    let mant10 : Nat := digitsToNat (ip ++ fp)
    let mkVal : Int → ℚ := fun e =>
      let e' : Int := e - (fp.length : Int)
      if 0 ≤ e' then mkRat ((mant10 : Int) * (((10 : Nat) ^ e'.toNat : Nat) : Int)) 1
      else mkRat (mant10 : Int) ((10 : Nat) ^ (-e').toNat)
    match r2 with
    | [] => some (mkVal 0)
    | e :: t =>
      if e = 'e' ∨ e = 'E' then
        let sgn : Int := match t with | '+' :: _ => 1 | '-' :: _ => -1 | _ => 1
        let t2 : List Char :=
          match t with
          | '+' :: u => u
          | '-' :: u => u
          | u => u
        let ed := t2.takeWhile (fun c => c.isDigit)
        let rest := t2.dropWhile (fun c => c.isDigit)
        if ed.isEmpty ∨ ¬ rest.isEmpty then none
        else some (mkVal (sgn * (digitsToNat ed : Int)))
      else none

/-- The atom run read by the final branch of `atomize`, starting at the
current character `c`: the maximal prefix of characters not in
`atom_terminator`. -/
def atomRun (c : Char) (rs : List Char) : List Char :=
  c :: rs.takeWhile (fun x => !(decide (x ∈ atom_terminator)))

/-- The characters remaining after `atomRun`. -/
def atomRest (rs : List Char) : List Char :=
  rs.dropWhile (fun x => !(decide (x ∈ atom_terminator)))

/-- The scanning loop of `atomize`, over the remaining characters with the
counters `line`, `line_start` and `i` of the Python generator.  Branches,
in source order: whitespace, `#` comments, string literals, quoted atoms,
operator characters, one-character symbols, atom runs. -/
def atomizeAux (fuel : Nat) (rest : List Char) (line line_start i : Nat) :
    Except PyError (List Token) :=
  match fuel with
  | 0 => .error .fuel
  | fuel + 1 =>
    match rest with
    | [] => .ok []
    | c :: rs =>
      let start_offset := get_position line line_start i
      if c ∈ spaceChars then
        if c = '\n' then atomizeAux fuel rs (line + 1) (i + 1) (i + 1)
        else atomizeAux fuel rs line line_start (i + 1)
      else if c = '#' then
        let skipped := (c :: rs).takeWhile (fun x => x ≠ '\n')
        atomizeAux fuel ((c :: rs).dropWhile (fun x => x ≠ '\n'))
          line line_start (i + skipped.length)
      else if c = '"' then
        match readStr rs with
        | .error e => .error e
        | .ok (value, consumed) => do
          let i2 := i + 1 + consumed
          let loc : SourceLocation := ⟨start_offset, get_position line line_start i2⟩
          let toks ← atomizeAux fuel (rs.drop consumed) line line_start i2
          .ok (Token.stringValue value (some loc) :: toks)
      else if c = '`' then
        match readQuoted rs with
        | .error e => .error e
        | .ok (value, consumed) => do
          let i2 := i + 1 + consumed
          let loc : SourceLocation := ⟨start_offset, get_position line line_start i2⟩
          let toks ← atomizeAux fuel (rs.drop consumed) line line_start i2
          .ok (Token.atom value (some loc) :: toks)
      else if c ∈ opChars then do
        let loc : SourceLocation := ⟨start_offset, get_position line line_start (i + 1)⟩
        let toks ← atomizeAux fuel rs line line_start (i + 1)
        .ok (Token.operator c (some loc) :: toks)
      else if c ∈ atom_terminator ∨ c ∈ special_chars then do
        let loc : SourceLocation := ⟨start_offset, get_position line line_start (i + 1)⟩
        let toks ← atomizeAux fuel rs line line_start (i + 1)
        .ok (Token.symbol (String.mk [c]) (some loc) :: toks)
      else
        let run := atomRun c rs
        let rest2 := atomRest rs
        let i2 := i + run.length
        let loc : SourceLocation := ⟨start_offset, get_position line line_start i2⟩
        let value : String := ⟨run⟩
        if c ∈ digitChars then
          match pythonFloat run with
          | none => .error .valueError
          | some q => do
            let toks ← atomizeAux fuel rest2 line line_start i2
            .ok (Token.numericValue q (some loc) :: toks)
        else do
          let toks ← atomizeAux fuel rest2 line line_start i2
          .ok (Token.atom value (some loc) :: toks)

/-- The generator `atomize(source)`: scan from index 0 with `line = 1`
and `line_start = 0`.  Each scanning step consumes at least one character,
so `length + 1` fuel always suffices. -/
def atomize (source : String) : Except PyError (List Token) :=
  atomizeAux (source.length + 1) source.data 1 0 0

/-! ## Parser -/

/-- The helper `expect_exact(it, expected)`: consume one token and raise a
located `ParserError` unless it equals the expected template. -/
def expect_exact (it : LookaheadIterator) (expected : Token) :
    Except PyError LookaheadIterator := do
  let (atom, it) ← it.next
  if tokenEq atom expected then .ok it
  else .error (.parserError (.unexpected atom expected) atom.location)

/-- The function `parse_simple_value(atom)` from `parser.py`.  Its first
four cases call the nonexistent `airast.JsonValue`, raising
`AttributeError`; an `Atom` becomes a `VariableReference` (leading `$`
stripped) or an `Identifier`, where an empty atom name makes `name[0]`
raise `IndexError`; any other token falls through every case and returns
Python `None`. -/
def parse_simple_value (atom : Token) : Except PyError PyAst :=
  match atom with
  | .stringValue _ _ => .error (.attributeError "JsonValue")
  | .numericValue _ _ => .error (.attributeError "JsonValue")
  | .atom name _ =>
    if strLower name = "true" then .error (.attributeError "JsonValue")
    else if strLower name = "false" then .error (.attributeError "JsonValue")
    else
      match name.data with
      | [] => .error .indexError
      | c :: rest =>
        if c = '$' then .ok (.variableReference ⟨rest⟩)
        else .ok (.identifier name)
  | _ => .ok .none_

/-- The `location` attribute of a parsed value: every AST node built by the
parser carries `location = None`; Python `None` itself has no such
attribute. -/
def astLocation : PyAst → Except PyError (Option SourceLocation)
  | .none_ => .error (.attributeError "location")
  | _ => .ok none

/-- Whether a parsed value is the Python value `None`. -/
def isNone_ : PyAst → Bool
  | .none_ => true
  | _ => false

/-- Construction of `airast.CallExpression`, whose `__init__` asserts that
the callee and every argument are non-`None`. -/
def mkCallExpression (func : PyAst) (parameter : List PyAst) :
    Except PyError PyAst :=
  match func with
  | .none_ => .error .assertionError
  | _ =>
    if parameter.any isNone_ then .error .assertionError
    else .ok (.callExpression func parameter)

/-- The function `parse_operator(it)`: consume one (or, for comparisons,
two) tokens and classify the operator, or raise `ParserError`. -/
def parse_operator (it : LookaheadIterator) :
    Except PyError (BinaryOperator × LookaheadIterator) := do
  let (op, it) ← it.next
  if tokenEq op (.operator '+' none) then .ok (.ADD, it)
  else if tokenEq op (.operator '-' none) then .ok (.SUB, it)
  else if tokenEq op (.operator '*' none) then .ok (.MUL, it)
  else if tokenEq op (.operator '/' none) then .ok (.DIV, it)
  else if tokenEq op (.atom "and" none) then .ok (.AND, it)
  else if tokenEq op (.atom "or" none) then .ok (.OR, it)
  else if tokenEq op (.operator '!' none) then do
    let it ← expect_exact it (.symbol "=" none)
    .ok (.NEQ, it)
  else if tokenEq op (.symbol "=" none) then do
    let it ← expect_exact it (.symbol "=" none)
    .ok (.EQ, it)
  else if tokenEq op (.operator '<' none) then
    let (ah, it) := it.lookahead
    if optEq ah (.symbol "=" none) then do
      let (_, it) ← it.next
      .ok (.LE, it)
    else .ok (.LT, it)
  else if tokenEq op (.operator '>' none) then
    let (ah, it) := it.lookahead
    if optEq ah (.symbol "=" none) then do
      let (_, it) ← it.next
      .ok (.GE, it)
    else .ok (.GT, it)
  else .error (.parserError (.unknownOperator op) op.location)

/-- The function `is_operator_ahead(it)`: an `Operator` instance, or one
of `Atom("and")`, `Atom("or")`, `Symbol("=")`, is ahead.  Calling
`lookahead` caches a token, so the (possibly updated) stream is returned
alongside. -/
def is_operator_ahead (it : LookaheadIterator) : Bool × LookaheadIterator :=
  let (ahead, it) := it.lookahead
  match ahead with
  | some (.operator _ _) => (true, it)
  | _ =>
    if optMem ahead [.atom "and" none, .atom "or" none, .symbol "=" none]
    then (true, it) else (false, it)

/-- The local `terminates_call` predicate of `parse_function_call`: a
call's argument list stops before any `Symbol` other than `(`, any
`Operator`, or one of the keyword atoms `end`, `else`, `begin`, `do`;
the end-of-input sentinel does not terminate it. -/
def terminates_call (token : Option Token) : Bool :=
  if optEq token (.symbol "(" none) then false
  else
    match token with
    | some (.symbol _ _) => true
    | some (.operator _ _) => true
    | _ =>
      optMem token
        [.atom "end" none, .atom "else" none, .atom "begin" none, .atom "do" none]

/-- The inner `while` of `parse_operator_expression`: as long as the top
of the operator stack has precedence at least `p`, pop two operands and
one operator and push the combined `BinaryExpression` (`reduce_stacks`);
under-full stacks fail the Python `assert`s. -/
def drain_ge (p : Int) :
    List PyAst → List BinaryOperator →
    Except PyError (List PyAst × List BinaryOperator)
  | opnds, [] => .ok (opnds, [])
  | opnds, top :: opsRest =>
    if top.precedence ≥ p then
      match opnds with
      | right :: left :: rest =>
        drain_ge p (PyAst.binaryExpression top left right :: rest) opsRest
      | _ => .error .assertionError
    else .ok (opnds, top :: opsRest)

/-- The final `while` of `parse_operator_expression`: reduce until the
operator stack is empty. -/
def drain_all :
    List PyAst → List BinaryOperator → Except PyError (List PyAst)
  | opnds, [] => .ok opnds
  | opnds, top :: opsRest =>
    match opnds with
    | right :: left :: rest =>
      drain_all (PyAst.binaryExpression top left right :: rest) opsRest
    | _ => .error .assertionError

mutual

/-- The function `parse_block(it)`: `begin`, block expressions, `end`. -/
def parse_block :
    Nat → LookaheadIterator → Except PyError (PyAst × LookaheadIterator)
  | 0, _ => .error .fuel
  | fuel + 1, it => do
    let it ← expect_exact it (.atom "begin" none)
    let (block, it) ← block_until_end_loop fuel it []
    .ok (.blockExpression block, it)

/-- The loop `while it.lookahead() != Atom("end"): ... ; it.next()`
shared verbatim by `parse_block`, `parse_lambda_expression` and
`parse_foreach_expression`: collect block expressions, then consume the
`end` token. -/
def block_until_end_loop :
    Nat → LookaheadIterator → List PyAst →
    Except PyError (List PyAst × LookaheadIterator)
  | 0, _, _ => .error .fuel
  | fuel + 1, it, acc =>
    let (ah, it) := it.lookahead
    if optEq ah (.atom "end" none) then do
      let (_, it) ← it.next
      .ok (acc.reverse, it)
    else do
      let (e, it) ← parse_block_expression fuel it
      block_until_end_loop fuel it (e :: acc)

/-- The function `parse_block_or_simple(it)` (present in the source,
currently unreferenced by the grammar). -/
def parse_block_or_simple :
    Nat → LookaheadIterator → Except PyError (PyAst × LookaheadIterator)
  | 0, _ => .error .fuel
  | fuel + 1, it =>
    let (ah, it) := it.lookahead
    if optEq ah (.atom "begin" none) then parse_block_expression fuel it
    else parse_simple_expression fuel it

/-- The function `parse_block_or_complex(it)`, used for `let` binding
values. -/
def parse_block_or_complex :
    Nat → LookaheadIterator → Except PyError (PyAst × LookaheadIterator)
  | 0, _ => .error .fuel
  | fuel + 1, it =>
    let (ah, it) := it.lookahead
    if optEq ah (.atom "begin" none) then parse_block_expression fuel it
    else parse_complex_expression fuel it

/-- The function `parse_condition(it)`: `cond :`, the `if ... do : ...`
arms, then an optional `otherwise` arm whose case is built with
`airast.JsonValue(True)` — an attribute missing from module `airast`, so
reaching it raises `AttributeError`. -/
def parse_condition :
    Nat → LookaheadIterator → Except PyError (PyAst × LookaheadIterator)
  | 0, _ => .error .fuel
  | fuel + 1, it => do
    let it ← expect_exact it (.atom "cond" none)
    let it ← expect_exact it (.symbol ":" none)
    let (cases, it) ← cond_cases_loop fuel it []
    let (ah, it) := it.lookahead
    if optEq ah (.atom "otherwise" none) then do
      let (_, it) ← it.next
      let it ← expect_exact it (.symbol ":" none)
      let (_then, _it) ← parse_complex_expression fuel it
      .error (.attributeError "JsonValue")
    else do
      let it ← expect_exact it (.atom "end" none)
      .ok (.caseExpression cases, it)

/-- The `while it.lookahead() == Atom("if")` loop of `parse_condition`. -/
def cond_cases_loop :
    Nat → LookaheadIterator → List (PyAst × PyAst) →
    Except PyError (List (PyAst × PyAst) × LookaheadIterator)
  | 0, _, _ => .error .fuel
  | fuel + 1, it, acc =>
    let (ah, it) := it.lookahead
    if optEq ah (.atom "if" none) then do
      let (_, it) ← it.next
      let (cond, it) ← parse_complex_expression fuel it
      let it ← expect_exact it (.atom "do" none)
      let it ← expect_exact it (.symbol ":" none)
      let (then_, it) ← parse_complex_expression fuel it
      cond_cases_loop fuel it ((cond, then_) :: acc)
    else .ok (acc.reverse, it)

/-- The function `parse_lambda_expression(it)`. -/
def parse_lambda_expression :
    Nat → LookaheadIterator → Except PyError (PyAst × LookaheadIterator)
  | 0, _ => .error .fuel
  | fuel + 1, it => do
    let it ← expect_exact it (.atom "lambda" none)
    let (params, it) ← lam_params_loop fuel it []
    let (ah, it) := it.lookahead
    let (captures, it) ←
      if optEq ah (.atom "using" none) then do
        let (_, it) ← it.next
        lam_captures_loop fuel it []
      else .ok (([] : List PyAst), it)
    let it ← expect_exact it (.atom "do" none)
    let it ← expect_exact it (.symbol ":" none)
    let (block, it) ← block_until_end_loop fuel it []
    .ok (.lambdaExpression params captures (.blockExpression block), it)

/-- The parameter loop of `parse_lambda_expression`: each token must parse
to a `VariableReference` (otherwise the two-argument
`RuntimeError("Expected variable name, found ...", var.location)` is
raised, itself preceded by an `AttributeError` when the value is `None`);
after a parameter, `Atom("using")` or `Atom("do")` ends the list, and any
other separator is matched against `Symbol('', '')` — the empty symbol —
by `expect_exact`. -/
def lam_params_loop :
    Nat → LookaheadIterator → List PyAst →
    Except PyError (List PyAst × LookaheadIterator)
  | 0, _, _ => .error .fuel
  | fuel + 1, it, acc => do
    let (tok, it) ← it.next
    let var ← parse_simple_value tok
    match var with
    | .variableReference _ =>
      let (ah, it) := it.lookahead
      if optMem ah [.atom "using" none, .atom "do" none] then
        .ok ((var :: acc).reverse, it)
      else do
        let it ← expect_exact it (.symbol "" none)
        lam_params_loop fuel it (var :: acc)
    | _ => do
      let loc ← astLocation var
      .error (.runtimeErrorAt (.expectedVariableName var) loc)

/-- The capture loop of `parse_lambda_expression`: like the parameter loop
but terminated by `Atom("do")`, separated by `Symbol(',')`, and raising
the one-argument `RuntimeError`. -/
def lam_captures_loop :
    Nat → LookaheadIterator → List PyAst →
    Except PyError (List PyAst × LookaheadIterator)
  | 0, _, _ => .error .fuel
  | fuel + 1, it, acc => do
    let (tok, it) ← it.next
    let var ← parse_simple_value tok
    match var with
    | .variableReference _ =>
      let (ah, it) := it.lookahead
      if optEq ah (.atom "do" none) then .ok ((var :: acc).reverse, it)
      else do
        let it ← expect_exact it (.symbol "," none)
        lam_captures_loop fuel it (var :: acc)
    | _ => .error (.runtimeError (.expectedVariableName var))

/-- The function `parse_foreach_expression(it)`. -/
def parse_foreach_expression :
    Nat → LookaheadIterator → Except PyError (PyAst × LookaheadIterator)
  | 0, _ => .error .fuel
  | fuel + 1, it => do
    let it ← expect_exact it (.atom "foreach" none)
    let (bindings, it) ← foreach_bind_loop fuel it []
    let (body, it) ← block_until_end_loop fuel it []
    .ok (.foreachExpression bindings body, it)

/-- The binding loop of `parse_foreach_expression`: `$name in simple`,
separated by `Symbol(',')`, ended by `do :`. -/
def foreach_bind_loop :
    Nat → LookaheadIterator → List (PyAst × PyAst) →
    Except PyError (List (PyAst × PyAst) × LookaheadIterator)
  | 0, _, _ => .error .fuel
  | fuel + 1, it, acc => do
    let (tok, it) ← it.next
    let var ← parse_simple_value tok
    match var with
    | .variableReference _ => do
      let it ← expect_exact it (.atom "in" none)
      let (val, it) ← parse_simple_expression fuel it
      let acc := (var, val) :: acc
      let (tok2, it) := it.lookahead
      if optEq tok2 (.atom "do" none) then do
        let (_, it) ← it.next
        let it ← expect_exact it (.symbol ":" none)
        .ok (acc.reverse, it)
      else do
        let it ← expect_exact it (.symbol "," none)
        foreach_bind_loop fuel it acc
    | _ => .error (.runtimeError (.expectedVariableReference var))

/-- The function `parse_let_expression(it)`. -/
def parse_let_expression :
    Nat → LookaheadIterator → Except PyError (PyAst × LookaheadIterator)
  | 0, _ => .error .fuel
  | fuel + 1, it => do
    let it ← expect_exact it (.atom "let" none)
    let (bindings, it) ← let_bind_loop fuel it []
    let (body, it) ← let_body_loop fuel it []
    .ok (.letExpression bindings body, it)

/-- The binding loop of `parse_let_expression`: `$name = block-or-complex`,
separated by `Symbol(',')`, ended by `Symbol(';')` (consumed). -/
def let_bind_loop :
    Nat → LookaheadIterator → List (PyAst × PyAst) →
    Except PyError (List (PyAst × PyAst) × LookaheadIterator)
  | 0, _, _ => .error .fuel
  | fuel + 1, it, acc => do
    let (tok, it) ← it.next
    let var ← parse_simple_value tok
    match var with
    | .variableReference _ => do
      let it ← expect_exact it (.symbol "=" none)
      let (val, it) ← parse_block_or_complex fuel it
      let acc := (var, val) :: acc
      let (tok2, it) := it.lookahead
      if optEq tok2 (.symbol ";" none) then do
        let (_, it) ← it.next
        .ok (acc.reverse, it)
      else do
        let it ← expect_exact it (.symbol "," none)
        let_bind_loop fuel it acc
    | _ => .error (.runtimeError (.expectedVariableReference var))

/-- The body loop of `parse_let_expression`: block expressions until
`Atom("end")` (not consumed) or end of input. -/
def let_body_loop :
    Nat → LookaheadIterator → List PyAst →
    Except PyError (List PyAst × LookaheadIterator)
  | 0, _, _ => .error .fuel
  | fuel + 1, it, acc =>
    let (ah, it) := it.lookahead
    if optEq ah (.atom "end" none) then .ok (acc.reverse, it)
    else
      match ah with
      | none => .ok (acc.reverse, it)
      | some _ => do
        let (e, it) ← parse_block_expression fuel it
        let_body_loop fuel it (e :: acc)

/-- The function `parse_function_call(it, func)`: greedily parse simple
expressions as arguments until `terminates_call`, then build the
`CallExpression` (running its constructor asserts). -/
def parse_function_call :
    Nat → LookaheadIterator → PyAst →
    Except PyError (PyAst × LookaheadIterator)
  | 0, _, _ => .error .fuel
  | fuel + 1, it, func => fn_call_loop fuel it func []

/-- The argument loop of `parse_function_call`. -/
def fn_call_loop :
    Nat → LookaheadIterator → PyAst → List PyAst →
    Except PyError (PyAst × LookaheadIterator)
  | 0, _, _, _ => .error .fuel
  | fuel + 1, it, func, acc =>
    let (n, it) := it.lookahead
    if terminates_call n then do
      let ast ← mkCallExpression func acc.reverse
      .ok (ast, it)
    else do
      let (p, it) ← parse_simple_expression fuel it
      fn_call_loop fuel it func (p :: acc)

/-- The function `parse_operator_expression(it, first)`: precedence
climbing with an operand stack seeded with `first` and an operator
stack. -/
def parse_operator_expression :
    Nat → LookaheadIterator → PyAst →
    Except PyError (PyAst × LookaheadIterator)
  | 0, _, _ => .error .fuel
  | fuel + 1, it, first => op_expr_loop fuel it [first] []

/-- The main loop of `parse_operator_expression`: while an operator is
ahead, reduce every stacked operator of precedence at least the incoming
one's, push the incoming operator, and parse-and-push its right operand;
afterwards drain the stacks and return the single remaining operand. -/
def op_expr_loop :
    Nat → LookaheadIterator → List PyAst → List BinaryOperator →
    Except PyError (PyAst × LookaheadIterator)
  | 0, _, _, _ => .error .fuel
  | fuel + 1, it, opnds, ops =>
    let (b, it) := is_operator_ahead it
    if b then do
      let (op, it) ← parse_operator it
      let (opnds, ops) ← drain_ge op.precedence opnds ops
      let (opnd, it) ← parse_simple_expression fuel it
      op_expr_loop fuel it (opnd :: opnds) (op :: ops)
    else do
      let opnds ← drain_all opnds ops
      match opnds with
      | [x] => .ok (x, it)
      | _ => .error .assertionError

/-- The function `parse_simple_expression(it)`: a parenthesised complex
expression, a unary minus, or a simple value. -/
def parse_simple_expression :
    Nat → LookaheadIterator → Except PyError (PyAst × LookaheadIterator)
  | 0, _ => .error .fuel
  | fuel + 1, it => do
    let (atom, it) ← it.next
    if tokenEq atom (.symbol "(" none) then do
      let (expr, it) ← parse_complex_expression fuel it
      let it ← expect_exact it (.symbol ")" none)
      .ok (expr, it)
    else if tokenEq atom (.operator '-' none) then do
      let (expr, it) ← parse_simple_expression fuel it
      .ok (.unaryExpression .NEG expr, it)
    else do
      let v ← parse_simple_value atom
      .ok (v, it)

/-- The function `parse_composed_expression(it)`: dispatch on the token
after the first simple expression — an `Operator` instance continues as
an operator expression, an `Atom` or `Symbol('(')` as a function call,
anything else returns the simple expression unchanged. -/
def parse_composed_expression :
    Nat → LookaheadIterator → Except PyError (PyAst × LookaheadIterator)
  | 0, _ => .error .fuel
  | fuel + 1, it => do
    let (first, it) ← parse_simple_expression fuel it
    let (ahead, it) := it.lookahead
    match ahead with
    | some (.operator _ _) => parse_operator_expression fuel it first
    | _ =>
      if (match ahead with | some (.atom _ _) => true | _ => false)
          || optEq ahead (.symbol "(" none) then
        parse_function_call fuel it first
      else .ok (first, it)

/-- The function `parse_if_else_expression(it)`. -/
def parse_if_else_expression :
    Nat → LookaheadIterator → Except PyError (PyAst × LookaheadIterator)
  | 0, _ => .error .fuel
  | fuel + 1, it => do
    let it ← expect_exact it (.atom "if" none)
    let (cond, it) ← parse_simple_expression fuel it
    let it ← expect_exact it (.symbol ":" none)
    let (then_, it) ← parse_block_expression fuel it
    let it ← expect_exact it (.atom "else" none)
    let it ← expect_exact it (.symbol ":" none)
    let (otherwise, it) ← parse_block_expression fuel it
    let it ← expect_exact it (.atom "end" none)
    .ok (.ifThenElse cond then_ otherwise, it)

/-- The function `parse_complex_expression(it)`. -/
def parse_complex_expression :
    Nat → LookaheadIterator → Except PyError (PyAst × LookaheadIterator)
  | 0, _ => .error .fuel
  | fuel + 1, it =>
    let (ah, it) := it.lookahead
    if optEq ah (.atom "if" none) then parse_if_else_expression fuel it
    else if optEq ah (.atom "lambda" none) then parse_lambda_expression fuel it
    else parse_composed_expression fuel it

/-- The function `parse_block_expression(it)`: `begin`/`cond`/`let`/
`foreach` statements, otherwise a complex expression with an optional
trailing `;`. -/
def parse_block_expression :
    Nat → LookaheadIterator → Except PyError (PyAst × LookaheadIterator)
  | 0, _ => .error .fuel
  | fuel + 1, it =>
    let (ah, it) := it.lookahead
    if optEq ah (.atom "begin" none) then parse_block fuel it
    else if optEq ah (.atom "cond" none) then parse_condition fuel it
    else if optEq ah (.atom "let" none) then parse_let_expression fuel it
    else if optEq ah (.atom "foreach" none) then parse_foreach_expression fuel it
    else do
      let (expr, it) ← parse_complex_expression fuel it
      let (ah2, it) := it.lookahead
      if optEq ah2 (.symbol ";" none) then do
        let (_, it) ← it.next
        .ok (expr, it)
      else .ok (expr, it)

/-- The top-level loop of `parse(source)`: block expressions until the
lookahead is the end-of-input sentinel. -/
def parse_top_loop :
    Nat → LookaheadIterator → List PyAst → Except PyError PyAst
  | 0, _, _ => .error .fuel
  | fuel + 1, it, acc =>
    let (ah, it) := it.lookahead
    match ah with
    | none => .ok (.blockExpression acc.reverse)
    | some _ => do
      let (e, it) ← parse_block_expression fuel it
      parse_top_loop fuel it (e :: acc)

end

/-- The entry point `parse(source)`: lex, then run the top-level loop on a
fresh lookahead stream.  The fuel is ample for the source length (the
`PyError.fuel` artefact never occurs on the inputs considered here). -/
def parse (source : String) : Except PyError PyAst := do
  let toks ← atomize source
  parse_top_loop (4 * source.length + 64) { lh := none, rest := toks } []

/-! ## IR emission (`airify`) -/

/-- AIR values: the nested arrays of scalars emitted by `airify`.  `intv`
is a Python `int` (the literal `0` in unary negation), `num` a Python
float, `boolv` the literal `True` used by `IfThenElse.airify`. -/
inductive Air
  | str (s : String)
  | num (q : ℚ)
  | boolv (b : Bool)
  | intv (n : Int)
  | list (xs : List Air)

/-- The `name` attribute of an AST node: only `VariableReference` and
`Identifier` define one; anything else (including Python `None`) raises
`AttributeError`. -/
def astName : PyAst → Except PyError String
  | .variableReference n => .ok n
  | .identifier n => .ok n
  | _ => .error (.attributeError "name")

mutual

/-- The virtual method `airify()` of the `airast` node classes, as one
exhaustive match.  Calling it on Python `None` (which `parse` can store in
a block, see `parse_simple_value`) raises `AttributeError`. -/
def airify : PyAst → Except PyError Air
  | .none_ => .error (.attributeError "airify")
  | .binaryExpression op l r => do
    let la ← airify l
    let ra ← airify r
    .ok (.list [.str op.opName, la, ra])
  | .unaryExpression _ operand => do
    let oa ← airify operand
    .ok (.list [.str "-", .intv 0, oa])
  | .caseExpression cases => do
    let ps ← airifyPairs cases
    .ok (.list (.str "if" :: ps))
  | .blockExpression block => do
    let xs ← airifyList block
    match xs with
    | [x] => .ok x
    | _ => .ok (.list (.str "seq" :: xs))
  | .letExpression bindings block => do
    let bs ← airifyBindings bindings
    let body ← airifyList block
    .ok (.list (.str "let" :: .list bs :: body))
  | .callExpression func parameter => do
    let fa ← airify func
    let ps ← airifyList parameter
    .ok (.list (fa :: ps))
  | .variableReference name => .ok (.list [.str "var-ref", .str name])
  | .identifier name => .ok (.str name)
  | .ifThenElse c t o => do
    let ca ← airify c
    let ta ← airify t
    let oa ← airify o
    .ok (.list [.str "if", .list [ca, ta], .list [.boolv true, oa]])
  | .foreachExpression vars block => do
    let bs ← airifyBindings vars
    let body ← airifyList block
    .ok (.list (.str "foreach" :: .list bs :: body))
  | .lambdaExpression params captures expr => do
    let cn ← airifyNames captures
    let pn ← airifyNames params
    let ea ← airify expr
    .ok (.list [.str "lambda",
      .list [.str "quote", .list cn],
      .list [.str "quote", .list pn],
      .list [.str "quote", ea]])

/-- Elementwise `airify` of a node list (`[x.airify() for x in ...]`). -/
def airifyList : List PyAst → Except PyError (List Air)
  | [] => .ok []
  | x :: xs => do
    let a ← airify x
    let rest ← airifyList xs
    .ok (a :: rest)

/-- The `[[x[0].airify(), x[1].airify()] for x in cases]` of
`CaseExpression.airify`. -/
def airifyPairs : List (PyAst × PyAst) → Except PyError (List Air)
  | [] => .ok []
  | (a, b) :: xs => do
    let aa ← airify a
    let ba ← airify b
    let rest ← airifyPairs xs
    .ok (.list [aa, ba] :: rest)

/-- The `[x[0].name, x[1].airify()]` binding lists of
`LetExpression.airify` and `ForeachExpression.airify`. -/
def airifyBindings : List (PyAst × PyAst) → Except PyError (List Air)
  | [] => .ok []
  | (v, e) :: xs => do
    let n ← astName v
    let ea ← airify e
    let rest ← airifyBindings xs
    .ok (.list [.str n, ea] :: rest)

/-- The `[x.name for x in ...]` name lists of `LambdaExpression.airify`. -/
def airifyNames : List PyAst → Except PyError (List Air)
  | [] => .ok []
  | x :: xs => do
    let n ← astName x
    let rest ← airifyNames xs
    .ok (.str n :: rest)

end

/-- The pipeline of `main.py`: parse the source, then emit AIR from the
resulting tree. -/
def airOf (source : String) : Except PyError Air := do
  let ast ← parse source
  airify ast

/-- Decimal digits of a natural number, high digit first (fuelled, and
kernel-reducible unlike `Nat.toDigits`). -/
def natReprAux : Nat → Nat → List Char
  | 0, _ => []
  | fuel + 1, n =>
    if n = 0 then []
    else natReprAux fuel (n / 10) ++ [Char.ofNat (48 + n % 10)]

/-- Decimal rendering of a natural number. -/
def natRepr (n : Nat) : String :=
  if n = 0 then "0" else ⟨natReprAux (n + 1) n⟩

/-- Decimal rendering of an integer. -/
def intRepr : Int → String
  | .ofNat n => natRepr n
  | .negSucc n => "-" ++ natRepr (n + 1)

mutual

/-- Rendering of AIR values, sufficient to separate the concrete AIR
values compared in this file without a `DecidableEq` instance for the
nested inductive. -/
def airRepr : Air → String
  | .str s => "s:" ++ s ++ ";"
  | .num q => "n:" ++ intRepr q.num ++ "/" ++ natRepr q.den ++ ";"
  | .boolv b => if b then "bT;" else "bF;"
  | .intv n => "i:" ++ intRepr n ++ ";"
  | .list xs => "[" ++ airListRepr xs ++ "]"

/-- Rendering of AIR lists for `airRepr`. -/
def airListRepr : List Air → String
  | [] => ""
  | x :: xs => airRepr x ++ ";" ++ airListRepr xs

end

/-- Rendering of `airOf` results, for separating concrete outcomes. -/
def exceptAirRepr : Except PyError Air → String
  | .ok a => "ok:" ++ airRepr a
  | .error _ => "error"

/-! ## Helper lemmas -/

/-- Every element of a `takeWhile` prefix satisfies the predicate. -/
theorem mem_takeWhile_pred (p : Char → Bool) :
    ∀ (l : List Char) (a : Char), a ∈ l.takeWhile p → p a = true := by
  intro l
  induction l with
  | nil => intro a h; simp [List.takeWhile] at h
  | cons c t ih =>
    intro a h
    by_cases hc : p c
    · rw [List.takeWhile_cons_of_pos hc] at h
      rcases List.mem_cons.mp h with rfl | hmem
      · exact hc
      · exact ih a hmem
    · rw [List.takeWhile_cons_of_neg hc] at h
      simp at h

/-- The head of a `dropWhile` remainder falsifies the predicate. -/
theorem dropWhile_head_not_pred (p : Char → Bool) :
    ∀ (l : List Char) (d : Char) (ds : List Char),
      l.dropWhile p = d :: ds → p d = false := by
  intro l
  induction l with
  | nil => intro d ds h; simp [List.dropWhile] at h
  | cons c t ih =>
    intro d ds h
    by_cases hc : p c
    · rw [List.dropWhile_cons_of_pos hc] at h
      exact ih d ds h
    · rw [List.dropWhile_cons_of_neg hc] at h
      cases h
      simpa using hc

/-- The string-scanning loop fails with the positionless
`ParserError("Unterminated string constant")` whenever at least one
character remains after the opening quote and none of them closes it. -/
theorem readStr_unterminated :
    ∀ (cs : List Char), cs ≠ [] → '"' ∉ cs →
      readStr cs = .error (.parserError .unterminatedString none) := by
  intro cs
  induction cs with
  | nil => intro h _; exact absurd rfl h
  | cons c t ih =>
    intro _ hmem
    have hc : ¬(c = '"') := fun h => hmem (h ▸ List.mem_cons_self c t)
    match t, ih with
    | [], _ => simp [readStr, hc]
    | d :: ds, ih =>
      have ht := ih (by simp) (fun h => hmem (List.mem_cons_of_mem _ h))
      have hstep : readStr (c :: d :: ds) =
          (if c = '"' then Except.ok ("", 1)
           else do
             let (v, n) ← readStr (d :: ds)
             Except.ok (⟨c :: v.data⟩, n + 1)) := rfl
      rw [hstep, if_neg hc, ht]
      rfl

/-! ## Claim theorems -/

/-- C1: the parser's operator-expression loop implements precedence
climbing (reduce while the stacked operator's precedence is at least the
incoming one's), giving `ADD($a, MUL($b,$c))`, `ADD(MUL($a,$b), $c)` and
left-associative `SUB(SUB($a,$b), $c)` for variable operands — but the
claim's own examples with numeric literals instead raise `AttributeError`,
because `parse_simple_value` calls the nonexistent `airast.JsonValue` on
every `NumericValue` token, so `1 + 2 * 3` never parses. -/
theorem C1_precedence_climbing_blocked_by_missing_JsonValue :
    parse "1 + 2 * 3" = .error (.attributeError "JsonValue") ∧
    parse "$a + $b * $c" = .ok (.blockExpression
      [.binaryExpression .ADD (.variableReference "a")
        (.binaryExpression .MUL (.variableReference "b") (.variableReference "c"))]) ∧
    parse "$a * $b + $c" = .ok (.blockExpression
      [.binaryExpression .ADD
        (.binaryExpression .MUL (.variableReference "a") (.variableReference "b"))
        (.variableReference "c")]) ∧
    parse "$a - $b - $c" = .ok (.blockExpression
      [.binaryExpression .SUB
        (.binaryExpression .SUB (.variableReference "a") (.variableReference "b"))
        (.variableReference "c")]) :=
  ⟨rfl, rfl, rfl, rfl⟩

/-- C2 (counterexample): the claim says the lexer turns `1+2` into the
three tokens `Number(1)`, `Operator(+)`, `Number(2)`; in fact `+` does not
terminate an atom run, so the whole of `1+2` is one run whose
`float("1+2")` conversion raises `ValueError`. -/
theorem C2_counterexample_one_plus_two_is_one_run :
    atomize "1+2" = .error .valueError := rfl

/-- C2 (amended): an atom run is the maximal run of characters not in
`atom_terminator` (punctuation plus whitespace only — `=`, `+`, `-`, `*`,
`/` do not terminate a run): every character of `atomRun` lies outside
`atom_terminator` and the first remaining character, if any, lies inside
it.  A run starting with a digit is converted by `float(...)`, so `1+2`
fails to lex with `ValueError`, while `1 + 2` (with spaces) lexes to
`Number(1)`, `Operator(+)`, `Number(2)` with the indicated spans. -/
theorem C2_maximal_run_tokenization :
    (∀ (c : Char) (rs : List Char), c ∉ atom_terminator →
      ((∀ ch ∈ atomRun c rs, ch ∉ atom_terminator) ∧
        ∀ (d : Char) (ds : List Char), atomRest rs = d :: ds →
          d ∈ atom_terminator)) ∧
    atomize "1+2" = .error .valueError ∧
    atomize "1 + 2" = .ok
      [.numericValue 1 (some ⟨(1, 1), (1, 2)⟩),
       .operator '+' (some ⟨(1, 3), (1, 4)⟩),
       .numericValue 2 (some ⟨(1, 5), (1, 6)⟩)] := by
  refine ⟨?_, rfl, rfl⟩
  intro c rs hc
  constructor
  · intro ch hch
    rcases List.mem_cons.mp hch with rfl | hmem
    · exact hc
    · have := mem_takeWhile_pred _ rs ch hmem
      simpa using this
  · intro d ds h
    have := dropWhile_head_not_pred _ rs d ds h
    simpa using this

/-- C2 (witness): the amended maximality statement applied to the run
starting at `x` in `xy z`: the character after the run is a terminator. -/
theorem C2_maximal_run_tokenization_witness : ' ' ∈ atom_terminator :=
  (C2_maximal_run_tokenization.1 'x' ['y', ' ', 'z'] (by decide)).2
    ' ' ['z'] (by decide)

/-- C3: every parse that reaches a numeric literal, a string literal, a
`true`/`false` keyword, or a `cond` with an `otherwise` arm raises
`AttributeError` (module `airast` has no attribute `JsonValue`) instead of
producing a literal node: token-level statements about
`parse_simple_value`, plus whole-source parses exercising each path
(including `parse_condition`, where the `otherwise` arm is reached only
after a `lambda` arm body has consumed its own `end`). -/
theorem C3_literal_parses_raise_AttributeError :
    (∀ (v : ℚ) (loc : Option SourceLocation),
      parse_simple_value (.numericValue v loc) = .error (.attributeError "JsonValue")) ∧
    (∀ (s : String) (loc : Option SourceLocation),
      parse_simple_value (.stringValue s loc) = .error (.attributeError "JsonValue")) ∧
    (∀ (loc : Option SourceLocation),
      parse_simple_value (.atom "true" loc) = .error (.attributeError "JsonValue")) ∧
    (∀ (loc : Option SourceLocation),
      parse_simple_value (.atom "false" loc) = .error (.attributeError "JsonValue")) ∧
    parse "1" = .error (.attributeError "JsonValue") ∧
    parse "\"abc\"" = .error (.attributeError "JsonValue") ∧
    parse "true" = .error (.attributeError "JsonValue") ∧
    parse "cond: if $a do: lambda $x do: $x end otherwise: $c end" =
      .error (.attributeError "JsonValue") :=
  ⟨fun _ _ => rfl, fun _ _ => rfl, fun _ => rfl, fun _ => rfl, rfl, rfl, rfl, rfl⟩

/-- C3 (witness): the token-level statement at the literal `1`. -/
theorem C3_literal_parses_raise_AttributeError_witness :
    parse_simple_value (.numericValue 1 none) = .error (.attributeError "JsonValue") :=
  C3_literal_parses_raise_AttributeError.1 1 none

/-- C4 (counterexample): `lambda $x do: $x end` does not airify to the
claimed value with quoted body `["var-ref","x"]`. -/
theorem C4_counterexample_lambda_body_not_bare_varref :
    airOf "lambda $x do: $x end" ≠ .ok (.list [.str "lambda",
      .list [.str "quote", .list []],
      .list [.str "quote", .list [.str "x"]],
      .list [.str "quote", .list [.str "var-ref", .str "x"]]]) := by
  intro h
  exact absurd (congrArg exceptAirRepr h) (by decide)

/-- C4 (amended): `lambda $x do: $x end` airifies to
`["lambda", ["quote", []], ["quote", ["x"]], ["quote", [["var-ref","x"]]]]`:
the body `$x` is followed by the `Atom` token `end`, so
`parse_composed_expression` routes it through `parse_function_call`, which
terminates immediately and wraps it as a call with zero arguments, making
the quoted body the one-element list `[["var-ref","x"]]`. -/
theorem C4_lambda_airifies_to_nullary_call_body :
    airOf "lambda $x do: $x end" = .ok (.list [.str "lambda",
      .list [.str "quote", .list []],
      .list [.str "quote", .list [.str "x"]],
      .list [.str "quote", .list [.list [.str "var-ref", .str "x"]]]]) := rfl

/-- C5: the claim's example `let $x = 1, $y = 2; $x + $y` never produces a
`LetExpression` or its AIR: the first binding value `1` is a
`NumericValue`, so `parse_simple_value` raises `AttributeError` (module
`airast` has no attribute `JsonValue`). -/
theorem C5_let_example_raises_AttributeError :
    parse "let $x = 1, $y = 2; $x + $y" = .error (.attributeError "JsonValue") :=
  rfl

/-- C6 (counterexample): `$a and $b` does not parse to `AND($a,$b)`: after
`$a`, the `Atom` token `and` fails the `isinstance(ahead, Operator)` test
of `parse_composed_expression` and is instead swallowed as a function-call
argument, after which the argument loop pulls past end of input and raises
`StopIteration`. -/
theorem C6_counterexample_and_is_not_an_operator_start :
    parse "$a and $b" = .error .stopIteration := rfl

/-- C6 (amended): a composed expression continues as an operator
expression only when the token after the first simple expression is an
`Operator` instance; the logical keywords are `Atom` tokens and take the
function-call branch there (`$a and $b` fails with `StopIteration`), and
they are recognised as operators (via `is_operator_ahead`) only inside an
operator expression that an `Operator` token already started, as in
`$a < $b and $c < $d`. -/
theorem C6_operator_dispatch_requires_operator_token :
    parse "$a and $b" = .error .stopIteration ∧
    parse "$a + $b" = .ok (.blockExpression
      [.binaryExpression .ADD (.variableReference "a") (.variableReference "b")]) ∧
    parse "$a < $b and $c < $d" = .ok (.blockExpression
      [.binaryExpression .AND
        (.binaryExpression .LT (.variableReference "a") (.variableReference "b"))
        (.binaryExpression .LT (.variableReference "c") (.variableReference "d"))]) ∧
    is_operator_ahead ⟨some (.atom "and" none), []⟩ =
      (true, ⟨some (.atom "and" none), []⟩) :=
  ⟨rfl, rfl, rfl, rfl⟩

/-- C7: a two-parameter lambda cannot parse: after the first parameter,
`parse_lambda_expression` calls `expect_exact(it, Symbol('', ''))`, so the
separating comma `Symbol(',')` (here spanning columns 10-11) mismatches
the empty symbol and raises a located `ParserError`.  A parameter that is
not a variable reference does fail the parse as claimed
(`RuntimeError("Expected variable name, ...", var.location)`). -/
theorem C7_two_parameter_lambda_fails :
    parse "lambda $a, $b do: $a end" = .error (.parserError
      (.unexpected (.symbol "," (some ⟨(1, 10), (1, 11)⟩)) (.symbol "" none))
      (some ⟨(1, 10), (1, 11)⟩)) ∧
    parse "lambda foo do: $a end" =
      .error (.runtimeErrorAt (.expectedVariableName (.identifier "foo")) none) :=
  ⟨rfl, rfl⟩

/-- C8 (counterexample): at end of input `advance` does not return the
sentinel: `LookaheadIterator.next` on an exhausted stream raises
`StopIteration`. -/
theorem C8_counterexample_next_raises_at_eof :
    LookaheadIterator.next ⟨none, []⟩ = .error .stopIteration := rfl

/-- C8 (amended): on an exhausted stream, `lookahead` (peek) returns the
`None` sentinel and leaves the stream unchanged, while `next` (advance)
raises `StopIteration` — even immediately after such a peek, since the
sentinel is cached indistinguishably from an empty cache. -/
theorem C8_eof_peek_sentinel_advance_raises :
    ∀ (it : LookaheadIterator), it.lh = none → it.rest = [] →
      it.lookahead = (none, it) ∧ it.next = .error .stopIteration := by
  intro it h1 h2
  cases it
  subst h1
  subst h2
  exact ⟨rfl, rfl⟩

/-- C8 (witness): the amended statement at the empty stream. -/
theorem C8_eof_peek_sentinel_advance_raises_witness :
    LookaheadIterator.lookahead ⟨none, []⟩ = (none, ⟨none, []⟩) ∧
    LookaheadIterator.next ⟨none, []⟩ = .error .stopIteration :=
  C8_eof_peek_sentinel_advance_raises ⟨none, []⟩ rfl rfl

/-- C9 (counterexample): lexing `"abc` raises
`ParserError("Unterminated string constant")` whose `location` is `None`,
not the opening quote's position. -/
theorem C9_counterexample_unterminated_string_positionless :
    atomize "\"abc" = .error (.parserError .unterminatedString none) := rfl

/-- C9 (amended): an unterminated string literal raises the parser's error
kind (`ParserError("Unterminated string constant")`) but carries no source
position; when the opening quote is the final character the scan instead
raises `IndexError`; an unterminated quoted atom raises a plain
`RuntimeError("Unterminated quote sequence")`, also positionless. -/
theorem C9_unterminated_literal_errors :
    (∀ (cs : List Char), cs ≠ [] → '"' ∉ cs →
      readStr cs = .error (.parserError .unterminatedString none)) ∧
    readStr [] = .error .indexError ∧
    atomize "\"abc" = .error (.parserError .unterminatedString none) ∧
    atomize "`abc" = .error (.runtimeError .unterminatedQuote) ∧
    atomize "\"" = .error .indexError :=
  ⟨readStr_unterminated, rfl, rfl, rfl, rfl⟩

/-- C9 (witness): the general unterminated-string statement at `"a`. -/
theorem C9_unterminated_literal_errors_witness :
    readStr ['a'] = .error (.parserError .unterminatedString none) :=
  C9_unterminated_literal_errors.1 ['a'] (by decide) (by decide)

/-- C10: `parse_simple_value` returns Python `None` for every `Symbol`
token (falling through all its cases without raising), and consequently
the one-character sources `;` and `,` parse successfully to a
`BlockExpression` whose statement list contains a null entry. -/
theorem C10_symbol_falls_through_to_none :
    (∀ (s : String) (loc : Option SourceLocation),
      parse_simple_value (.symbol s loc) = .ok .none_) ∧
    parse ";" = .ok (.blockExpression [.none_]) ∧
    parse "," = .ok (.blockExpression [.none_]) :=
  ⟨fun _ _ => rfl, rfl, rfl⟩

/-- C10 (witness): the token-level statement at `Symbol(';')`. -/
theorem C10_symbol_falls_through_to_none_witness :
    parse_simple_value (.symbol ";" none) = .ok .none_ :=
  C10_symbol_falls_through_to_none.1 ";" none
